import Mathlib

/-!
# MetroCity: verification of the navigation, topology and passenger logic

Shallow embedding of the MetroCity simulation (modules `City.py`, `Line.py`,
`Train.py`, `Station.py`, `Passenger.py`, `Simulation.py`).  Python objects
are modelled as Lean structures; Python `None`/exceptions are modelled with
`Option`/`Except`; numpy's `inf`-valued distance matrix is modelled with
`ℕ∞` (which has the same arithmetic on the values the code produces:
`⊤ + x = ⊤`, `¬(⊤ < ⊤)`, `⊤ = ⊤ + x`).
-/

namespace MetroCity

/-- Python runtime exceptions raised by the translated code paths.
`brokenRef` marks a dereference that cannot occur for object graphs that
are reachable in the Python program (where links hold the objects
themselves); it never arises on the well-formed lines used below. -/
inductive PyErr where
  | typeError
  | attributeError
  | indexError
  | valueError
  | brokenRef
deriving DecidableEq

deriving instance DecidableEq for Except

/-! ## `City._update_navmap` (City.py)

`distmap` is a matrix of hop distances (`numpy` float matrix holding
integers and `inf`), `navmap` a matrix of sets of `(line color, direction)`
pairs.  Both are modelled as functions from (unbounded) indices; entries
outside `[0, n)²` keep their initial values, matching the `n × n` numpy
matrices on their actual index range.  Line colors are modelled by the
line's creation index (the code draws each line's color from a fixed
palette indexed by the number of existing lines, so colors are distinct
tokens per line). -/

/-- Matrix `City.distmap`. -/
abbrev Dist := Nat → Nat → ℕ∞

/-- Matrix `City.navmap`. -/
abbrev Nav := Nat → Nat → Finset (Nat × Int)

/-- Single matrix-entry assignment `distmap[i, j] = v`. -/
def updDist (d : Dist) (i j : Nat) (v : ℕ∞) : Dist :=
  fun x y => if x = i ∧ y = j then v else d x y

/-- Single matrix-entry assignment `navmap[i, j] = s`. -/
def updNav (nv : Nav) (i j : Nat) (s : Finset (Nat × Int)) : Nav :=
  fun x y => if x = i ∧ y = j then s else nv x y

/-- The data `City._update_navmap` reads from one `Line` object:
the length of `line.station_nodes`, the value of `line.is_circular()`,
the set `set([t.direction for t in line.trains()])`, and `line.color`. -/
structure LineSpec where
  numNodes : Nat
  circular : Bool
  trainDirs : Finset Int
  color : Nat

/-- The `directions` set computed per line in `City._update_navmap`:
on circular lines the directions observed on the assigned trains,
otherwise both directions. -/
def lineDirections (ls : LineSpec) : Finset Int :=
  if ls.circular then ls.trainDirs else ({-1, 1} : Finset Int)

/-- Body of the edge-filling loop of `City._update_navmap` for one `i` in
`range(len(station_idxs) - 1)`.  The code writes at matrix positions
`(i, i+1)`/`(i+1, i)` (the loop counter, not the stations' `idx`), guarded
by `self.stations[i] != self.stations[i+1]`, an identity comparison of two
distinct `Station` objects, hence always true for a well-formed city. -/
def fillPair (color : Nat) (dirs : Finset Int) (st : Dist × Nav) (i : Nat) :
    Dist × Nav :=
  let st1 :=
    if (1 : Int) ∈ dirs then
      (updDist st.1 i (i+1) 1,
       updNav st.2 i (i+1) (insert (color, (1 : Int)) (st.2 i (i+1))))
    else st
  if (-1 : Int) ∈ dirs then
    (updDist st1.1 (i+1) i 1,
     updNav st1.2 (i+1) i (insert (color, (-1 : Int)) (st1.2 (i+1) i)))
  else st1

/-- Edge filling for one line (the `for line in self.lines` body). -/
def fillLine (st : Dist × Nav) (ls : LineSpec) : Dist × Nav :=
  (List.range (ls.numNodes - 1)).foldl (fillPair ls.color (lineDirections ls)) st

/-- The initial matrices: `distmap` all `inf` with a zero diagonal,
`navmap` all empty sets. -/
def initState (_n : Nat) : Dist × Nav :=
  (fun i j => if i = j then 0 else ⊤, fun _ _ => ∅)

/-- One iteration of the Floyd-Warshall loop body at `(k, i, j)`:
first the tie check (union of route sets), then the strict-improvement
check (replace distance and route set). -/
def fwStep (st : Dist × Nav) (t : Nat × Nat × Nat) : Dist × Nav :=
  let d := st.1
  let k := t.1
  let i := t.2.1
  let j := t.2.2
  let nv1 :=
    if d i j = d i k + d k j then
      updNav st.2 i j (st.2 i j ∪ st.2 i k)
    else st.2
  if d i k + d k j < d i j then
    (updDist d i j (d i k + d k j), updNav nv1 i j (nv1 i k))
  else (d, nv1)

/-- All `(i, j)` pairs in the order `itertools.product(range n, repeat=2)`. -/
def allPairs (n : Nat) : List (Nat × Nat) :=
  (List.range n).flatMap fun i => (List.range n).map fun j => (i, j)

/-- All `(k, i, j)` triples in the order `itertools.product(range n, repeat=3)`. -/
def triples (n : Nat) : List (Nat × Nat × Nat) :=
  (List.range n).flatMap fun k => (allPairs n).map fun p => (k, p.1, p.2)

/-- Method `City._update_navmap`: initialise, fill unit edges from every line,
then run the in-place Floyd-Warshall relaxation. -/
def update_navmap (n : Nat) (lines : List LineSpec) : Dist × Nav :=
  (triples n).foldl fwStep (lines.foldl fillLine (initState n))

/-- The distance component of `fwStep` (the route sets never feed back
into the distances). -/
def dStep (k : Nat) (d : Dist) (p : Nat × Nat) : Dist :=
  if d p.1 k + d k p.2 < d p.1 p.2 then
    updDist d p.1 p.2 (d p.1 k + d k p.2)
  else d

/-- The effect of one whole `k`-pass of the in-place relaxation on the
distance matrix: a simultaneous pointwise `min` against routes through `k`
(entries outside the `n × n` range are untouched). -/
def purePass (n k : Nat) (d : Dist) : Dist :=
  fun i j => if i < n ∧ j < n then min (d i j) (d i k + d k j) else d i j

/-- Triangle inequality on indices below `n`, restricted to midpoints in
`K`. -/
def TriOn (n : Nat) (K : Nat → Prop) (d : Dist) : Prop :=
  ∀ k, K k → ∀ i j, i < n → j < n → d i j ≤ d i k + d k j

/-- All strictly "backward" entries are unreachable (used for the circular
line scenario: the code only ever creates forward consecutive edges). -/
def Bwd (d : Dist) : Prop :=
  ∀ x y, y < x → d x y = ⊤

/-- Distance entries are zero only on the diagonal, and the diagonal is
zero; route sets on the diagonal are empty. -/
def DiagInv (st : Dist × Nav) : Prop :=
  (∀ x, st.1 x x = 0) ∧ (∀ x y, st.1 x y = 0 → x = y) ∧ (∀ x, st.2 x x = ∅)

/-- No route set anywhere offers a `-1` first hop (used for the circular
line scenario: when every line's direction set excludes `-1`, no `-1`
route option is ever created). -/
def NoNeg (nvp : Nav) : Prop :=
  ∀ x y c, (c, (-1 : Int)) ∉ nvp x y

/-! ## `Line.py`: the doubly linked station-node topology

A `Station_Node` object is identified by an allocation id (`SNode.id`);
each line carries a fresh-id counter, so distinct node objects always have
distinct ids and structural equality of the model coincides with Python
object identity.  A `previous_node`/`next_node` field holds `None`, a
`Station_Node`, or — only through the faulty `make_circular` — a `Station`
object. -/

/-- A non-`None` value of a `previous_node`/`next_node` field. -/
inductive Link where
  | node (id : Nat)
  | station (s : Nat)
deriving DecidableEq

/-- A `Station_Node`: a station (by its city index) plus neighbour links. -/
structure SNode where
  id : Nat
  station : Nat
  previous_node : Option Link
  next_node : Option Link
deriving DecidableEq

/-- A `Line`: its `station_nodes` list and the next fresh node id. -/
structure LineT where
  nodes : List SNode
  fresh : Nat
deriving DecidableEq

/-- Mutate the `next_node` field of the node object with id `nid`. -/
def setNext (nodes : List SNode) (nid : Nat) (lk : Option Link) : List SNode :=
  nodes.map fun nd => if nd.id = nid then { nd with next_node := lk } else nd

/-- Mutate the `previous_node` field of the node object with id `nid`. -/
def setPrev (nodes : List SNode) (nid : Nat) (lk : Option Link) : List SNode :=
  nodes.map fun nd => if nd.id = nid then { nd with previous_node := lk } else nd

/-- Python list indexing `l[i]` (negative indices wrap once;
out-of-range raises `IndexError`). -/
def pyGet {α : Type} (l : List α) (i : Int) : Except PyErr α :=
  if 0 ≤ i then
    match l.get? i.toNat with
    | some a => .ok a
    | none => .error .indexError
  else if 0 ≤ (l.length : Int) + i then
    match l.get? ((l.length : Int) + i).toNat with
    | some a => .ok a
    | none => .error .indexError
  else .error .indexError

/-- Python `list.insert(i, a)` (clamps the index, never fails). -/
def pyInsert {α : Type} (l : List α) (i : Int) (a : α) : List α :=
  if 0 ≤ i then l.insertIdx (min i.toNat l.length) a
  else l.insertIdx ((max 0 ((l.length : Int) + i)).toNat) a

/-- Method `Line.is_circular`: `len ≤ 1` gives `False`; otherwise
`station_nodes[0] is not None` (always true — the list holds node objects)
and `station_nodes[-1].next_node == station_nodes[0]`, a Python equality
between the link's referent and the head node object: true only when the
link holds that very node. -/
def is_circular (l : LineT) : Bool :=
  if l.nodes.length ≤ 1 then false
  else
    match l.nodes.getLast?, l.nodes.head? with
    | some tl, some hd => tl.next_node = some (.node hd.id)
    | _, _ => false

/-- Method `Line.make_circular`: assigns
`station_nodes[0].previous_node = station_nodes[-1].station` and
`station_nodes[-1].next_node = station_nodes[0].station` — the `Station`
objects, not the nodes. -/
def make_circular (l : LineT) : Except PyErr LineT :=
  match l.nodes.head?, l.nodes.getLast? with
  | some hd, some tl =>
    .ok { l with nodes := (setNext
      (setPrev l.nodes hd.id (some (.station tl.station)))
      tl.id (some (.station hd.station))) }
  | _, _ => .error .indexError

/-- Method `Line.break_circular`: clears the head's `previous_node` and the
tail's `next_node`. -/
def break_circular (l : LineT) : Except PyErr LineT :=
  match l.nodes.head?, l.nodes.getLast? with
  | some hd, some tl =>
    .ok { l with nodes := setNext (setPrev l.nodes hd.id none) tl.id none }
  | _, _ => .error .indexError

/-- Method `Line.find_node`: first node whose station equals the given one. -/
def find_node (l : LineT) (station : Nat) : Option SNode :=
  l.nodes.find? fun nd => nd.station == station

/-- Method `Line.add_station(station, position)`, branch for branch. -/
def add_station (l : LineT) (station : Nat) (position : Int) :
    Except PyErr (Bool × LineT) :=
  if l.nodes.length = 0 ∧ position ≤ 0 then
    .ok (true, ⟨[⟨l.fresh, station, none, none⟩], l.fresh + 1⟩)
  else if station ∈ l.nodes.map (fun nd => nd.station) then
    .ok (false, l)
  else if position < -2 ∨ position > (l.nodes.length : Int) then
    .ok (false, l)
  else if position = -1 ∨ position = (l.nodes.length : Int) then
    match l.nodes.getLast? with
    | some tl =>
      .ok (true, ⟨setNext l.nodes tl.id (some (.node l.fresh)) ++
        [⟨l.fresh, station, some (.node tl.id), none⟩], l.fresh + 1⟩)
    | none => .error .indexError
  else if position = 0 then
    match l.nodes.head? with
    | some hd =>
      .ok (true, ⟨⟨l.fresh, station, none, some (.node hd.id)⟩ ::
        setPrev l.nodes hd.id (some (.node l.fresh)), l.fresh + 1⟩)
    | none => .error .indexError
  else do
    let prv ← pyGet l.nodes (position - 1)
    let nxt ← pyGet l.nodes position
    let ns := setNext (setPrev l.nodes nxt.id (some (.node l.fresh)))
      prv.id (some (.node l.fresh))
    .ok (true, ⟨pyInsert ns position
      ⟨l.fresh, station, some (.node prv.id), some (.node nxt.id)⟩,
      l.fresh + 1⟩)

/-- Method `Line.next_station(station_node, direction)`: returns the next node
object (by id) and the new direction, `(None, 0)` on the warning paths,
and raises `AttributeError` when it dereferences `next_node`/`previous_node`
on `None` or on a `Station` object (neither has those attributes). -/
def next_station (l : LineT) (station_node : SNode) (direction : Int) :
    Except PyErr (Option Nat × Int) :=
  if station_node ∉ l.nodes then .ok (none, 0)
  else if l.nodes.length = 1 then .ok (some station_node.id, direction)
  else if direction = 1 then
    match station_node.next_node with
    | none => .error .attributeError
    | some (.station _) => .error .attributeError
    | some (.node m) =>
      match l.nodes.find? (fun nd => nd.id == m) with
      | none => .error .brokenRef
      | some nd2 =>
        if nd2.next_node = none then .ok (some m, -1) else .ok (some m, 1)
  else if direction = -1 then
    match station_node.previous_node with
    | none => .error .attributeError
    | some (.station _) => .error .attributeError
    | some (.node m) =>
      match l.nodes.find? (fun nd => nd.id == m) with
      | none => .error .brokenRef
      | some nd2 =>
        if nd2.previous_node = none then .ok (some m, 1) else .ok (some m, -1)
  else .ok (none, 0)

/-- The node at position `i` of the standard chain over the stations `ss`
(ids equal positions, links to the positional neighbours). -/
def chainNode (ss : List Nat) (i : Nat) : SNode :=
  ⟨i, ss.getD i 0,
   if i = 0 then none else some (.node (i - 1)),
   if i = ss.length - 1 then none else some (.node (i + 1))⟩

/-- The line obtained by appending the stations of `ss` in order with
`add_station(s, -1)` starting from a new line. -/
def mkChain (ss : List Nat) : LineT :=
  ⟨(List.range ss.length).map (chainNode ss), ss.length⟩

/-- Whether an `add_station` call returned `True`. -/
def addSucceeded (r : Except PyErr (Bool × LineT)) : Bool :=
  match r with
  | .ok (true, _) => true
  | _ => false

/-! ## `Train.py`: wagons and capacity -/

/-- Constant `Train.WAGON_CAPACITY`. -/
def WAGON_CAPACITY : Nat := 6

/-- The eviction loop of `Train.remove_wagon`:
`while len(self.passengers) > self.capacity:` pop the last boarded
passenger and append it to the passenger list of the train's
current/last-visited station.  Passengers are identified by ids. -/
def evictExcess (ps sps : List Nat) (cap : Nat) : List Nat × List Nat :=
  if _hlen : cap < ps.length then
    evictExcess ps.dropLast (sps ++ [ps.getLastD 0]) cap
  else (ps, sps)
termination_by ps.length
decreasing_by
  rw [List.length_dropLast]
  omega

/-- Method `Train.remove_wagon`: fails when `capacity // WAGON_CAPACITY <= 1`,
otherwise lowers the capacity by one wagon and evicts the excess.
Returns `(returned bool, new capacity, onboard list, station's list)`. -/
def remove_wagon (capacity : Nat) (ps sps : List Nat) :
    Bool × Nat × List Nat × List Nat :=
  if capacity / WAGON_CAPACITY ≤ 1 then (false, capacity, ps, sps)
  else
    let r := evictExcess ps sps (capacity - WAGON_CAPACITY)
    (true, capacity - WAGON_CAPACITY, r.1, r.2)

/-! ## `Station.spawn_passengers` and `Passenger.__init__` destinations -/

/-- The destination loop of `Station.spawn_passengers`:
`dest = self` then `while dest == self: dest = numpy.random.choice(...)`.
The pseudo-random draws are modelled by the list of stations the RNG
returns, in order; `none` models exhausting the modelled draws (the loop
would keep drawing). -/
def spawn_destination (origin : Nat) : List Nat → Option Nat
  | [] => none
  | d :: rest => if d = origin then spawn_destination origin rest else some d

/-- The default-destination loop of `Passenger.__init__`
(`destination=None`): `while destination != origin: destination =
numpy.random.choice(self.city.stations)`.  Starting from `None` the loop
is entered, and it exits only when a draw *equals* the origin. -/
def default_destination (origin : Nat) : List Nat → Option Nat
  | [] => none
  | d :: rest => if d = origin then some d else default_destination origin rest

/-! ## `City.all_passengers` and the per-tick router order -/

/-- A passenger as ordered by `City.all_passengers`. -/
structure SPassenger where
  starttime : Nat
  pid : Nat
deriving DecidableEq

/-- Method `City.all_passengers`: the passengers on trains (comprehension in
train order), sorted by start time, followed by the passengers on
stations (in station order), sorted by start time.  Python's `sorted` is
a stable sort on the `starttime` key, modelled by `List.mergeSort`.  The
router loop of `Simulation.simulate_step` (`for passenger in
self.city.all_passengers(): passenger.move()`) iterates over exactly
this list. -/
def all_passengers (trains stations : List (List SPassenger)) :
    List SPassenger :=
  (trains.flatMap id).mergeSort (fun p q => p.starttime ≤ q.starttime) ++
    (stations.flatMap id).mergeSort (fun p q => p.starttime ≤ q.starttime)

/-! ## `Passenger.move`

`Station.idx` equals the station's position in `City.stations` by
construction (it is set to `len(self.city.stations)` at creation and
stations are never removed from the city), so the station object
`station_node.station` is modelled by its index into `World.stations`.
`Passenger.position` holds either a `Train` (index into `World.trains`)
or a `Station` (its index); `City.arrived_passengers` stores travel
durations. -/

/-- A `Station` as seen by `Passenger.move`: its passenger-id queue. -/
structure WStation where
  passengers : List Nat
deriving DecidableEq

/-- A deployed `Train` as seen by `Passenger.move`. -/
structure WTrain where
  lineColor : Nat
  direction : Int
  stationIdx : Nat
  tstate : Nat
  passengers : List Nat
  capacity : Nat
deriving DecidableEq

/-- A passenger's identity and mutable position. -/
structure WPassenger where
  pid : Nat
  start : Nat
  dest : Nat
  pos : Option (Sum Nat Nat)
deriving DecidableEq

/-- The containers `Passenger.move` reads and mutates. -/
structure World where
  stations : List WStation
  trains : List WTrain
  arrived : List Nat
deriving DecidableEq

/-- Python `list.remove`: drop the first occurrence, `ValueError` if
absent. -/
def pyRemove (l : List Nat) (x : Nat) : Except PyErr (List Nat) :=
  if x ∈ l then .ok (l.erase x) else .error .valueError

/-- Method `Train.can_enter(station)`: at the station, with spare capacity. -/
def can_enter (t : WTrain) (s : Nat) : Bool :=
  t.tstate = 0 ∧ t.stationIdx = s ∧ t.passengers.length < t.capacity

/-- Method `Train.can_exit()`: the train is at a station. -/
def can_exit (t : WTrain) : Bool :=
  t.tstate = 0

/-- First block of `Passenger.move`: on a train whose
`(line color, direction)` is not a route option toward the destination,
and which can be exited, step off onto the train's current/last-visited
station. -/
def moveBlockExit (nv : Nav) (w : World) (p : WPassenger) :
    Except PyErr (World × WPassenger) :=
  match p.pos with
  | some (.inl ti) =>
    match w.trains.get? ti with
    | none => .error .brokenRef
    | some t =>
      if ((t.lineColor, t.direction) ∉ nv t.stationIdx p.dest) ∧ can_exit t
      then
        match pyRemove t.passengers p.pid, w.stations.get? t.stationIdx with
        | .ok tps, some st =>
          .ok ({ w with
              trains := w.trains.set ti { t with passengers := tps },
              stations := w.stations.set t.stationIdx
                { st with passengers := st.passengers ++ [p.pid] } },
            { p with pos := some (.inr t.stationIdx) })
        | .error e, _ => .error e
        | _, none => .error .brokenRef
      else .ok (w, p)
  | _ => .ok (w, p)

/-- Second block of `Passenger.move`: on a station, board the first train
(in `city.trains` order) that can be entered here and whose
`(line color, direction)` is a route option toward the destination. -/
def moveBlockBoard (nv : Nav) (w : World) (p : WPassenger) :
    Except PyErr (World × WPassenger) :=
  match p.pos with
  | some (.inr s) =>
    match w.trains.findIdx? (fun t => can_enter t s &&
        decide ((t.lineColor, t.direction) ∈ nv s p.dest)) with
    | none => .ok (w, p)
    | some ti =>
      match w.trains.get? ti, w.stations.get? s with
      | some t, some st =>
        match pyRemove st.passengers p.pid with
        | .ok stps =>
          .ok ({ w with
              stations := w.stations.set s { st with passengers := stps },
              trains := w.trains.set ti
                { t with passengers := t.passengers ++ [p.pid] } },
            { p with pos := some (.inl ti) })
        | .error e => .error e
      | _, _ => .error .brokenRef
  | _ => .ok (w, p)

/-- Third block of `Passenger.move`: when the position *is* the
destination (a Python `==` that can only hold between the destination
`Station` and a station position), record the travel time and leave the
station queue. -/
def moveBlockArrive (time : Nat) (w : World) (p : WPassenger) :
    Except PyErr (World × WPassenger) :=
  match p.pos with
  | some (.inr s) =>
    if s = p.dest then
      match w.stations.get? s with
      | none => .error .brokenRef
      | some st =>
        match pyRemove st.passengers p.pid with
        | .ok stps =>
          .ok ({ w with
              arrived := w.arrived ++ [time - p.start],
              stations := w.stations.set s
                { st with passengers := stps } }, p)
        | .error e => .error e
    else .ok (w, p)
  | _ => .ok (w, p)

/-- Method `Passenger.move`: the three blocks in order, threading the mutated
containers and position. -/
def passenger_move (nv : Nav) (time : Nat) (w : World) (p : WPassenger) :
    Except PyErr (World × WPassenger) := do
  let r1 ← moveBlockExit nv w p
  let r2 ← moveBlockBoard nv r1.1 r1.2
  moveBlockArrive time r2.1 r2.2

/-- The outcome claimed by C10 for a passenger whose train sits at its
destination: the evaluation completes, the passenger is in no station
queue and on no train, its travel time is recorded, and its position is
the destination station. -/
def removedEverywhere (res : Except PyErr (World × WPassenger))
    (pid : Nat) (arrived0 : List Nat) (dur : Nat) (dest : Nat) : Prop :=
  match res with
  | .ok (w2, p2) =>
    (∀ st ∈ w2.stations, pid ∉ st.passengers) ∧
      (∀ t2 ∈ w2.trains, pid ∉ t2.passengers) ∧
      w2.arrived = arrived0 ++ [dur] ∧
      p2.pos = some (.inr dest)
  | .error _ => False

/-! ## `Simulation._process_user_actions` command paths

Only the state read by the three command paths named in claim C5 is
modelled.  In the source, `City` has no attribute `line` and no attribute
`city`; `Line` has no attribute `station_node` (the field is
`station_nodes`); reading them raises `AttributeError`.  A call of
`clear_line()` without its required `line` argument raises `TypeError`
before the method body runs. -/

/-- The city state read by the dispatched commands: line colors, train
ids, and the train limit. -/
structure PyCity where
  lines : List Nat
  trains : List Nat
  max_trains : Nat
deriving DecidableEq

/-- Method `City.clear_line(line)`: returns `False` for an unknown line;
for a known line the first loop reads `self.line.station_nodes`, and
`City` has no attribute `line`. -/
def clear_line (c : PyCity) (line : Nat) : Except PyErr Bool :=
  if line ∉ c.lines then .ok false
  else .error .attributeError

/-- Method `City.move_train(train, ...)`: its first check reads
`train not in self.city.trains`, and `City` has no attribute `city`. -/
def move_train (_c : PyCity) (_train : Nat) : Except PyErr Bool :=
  .error .attributeError

/-- Method `Train.set_line(line, station, direction)`: with
`station=None` it reads `line.station_node[0]`, and `Line` has no
attribute `station_node`; with a station it looks the node up via
`find_node`. -/
def set_line (l : LineT) (station : Option Nat) (_direction : Int) :
    Except PyErr Bool :=
  match station with
  | none => .error .attributeError
  | some s =>
    match find_node l s with
    | none => .ok false
    | some _ => .ok true

/-- Method `City.add_train(line, station, direction)` below the train
limit: appends a new train, then places it with `set_line`. -/
def add_train (c : PyCity) (l : LineT) (station : Option Nat)
    (direction : Int) : Except PyErr Bool :=
  if c.trains.length < c.max_trains then
    (set_line l station direction).map (fun _ => true)
  else .ok false

/-- Dispatcher branch for `object_type = line`, `action = remove`:
the source runs `success &= self.city.clear_line()`, calling the
one-argument method with no argument — `TypeError` at the call. -/
def dispatch_line_remove (_c : PyCity) : Except PyErr Bool :=
  .error .typeError

/-- Dispatcher branch for `object_type = train`, `action = move`:
`self.city.move_train(obj, line, station, direction)`. -/
def dispatch_train_move (c : PyCity) (train : Nat) : Except PyErr Bool :=
  move_train c train

/-- Dispatcher branch for `object_type = train`, `action = add` when the
action omits the station field: `self.city.add_train(line, None,
direction, trace)`. -/
def dispatch_train_add_no_station (c : PyCity) (l : LineT)
    (direction : Int) : Except PyErr Bool :=
  add_train c l none direction

/-! ## Lemmas about the Floyd-Warshall relaxation -/

lemma fwStep_fst (st : Dist × Nav) (t : Nat × Nat × Nat) :
    (fwStep st t).1 = dStep t.1 st.1 (t.2.1, t.2.2) := by
  unfold fwStep dStep
  by_cases h : st.1 t.2.1 t.1 + st.1 t.1 t.2.2 < st.1 t.2.1 t.2.2 <;> simp [h]

lemma dStep_col (k : Nat) (d : Dist) (a b i : Nat) :
    dStep k d (a, b) i k = d i k := by
  unfold dStep updDist
  split
  · next h =>
    by_cases hp : i = a ∧ k = b
    · obtain ⟨rfl, rfl⟩ := hp
      exact absurd h (not_lt.mpr le_self_add)
    · simp [hp]
  · rfl

lemma dStep_row (k : Nat) (d : Dist) (a b j : Nat) :
    dStep k d (a, b) k j = d k j := by
  unfold dStep updDist
  split
  · next h =>
    by_cases hp : k = a ∧ j = b
    · obtain ⟨rfl, rfl⟩ := hp
      exact absurd h (not_lt.mpr le_add_self)
    · simp [hp]
  · rfl

lemma dStep_self (k : Nat) (d : Dist) (a b : Nat) :
    dStep k d (a, b) a b = min (d a b) (d a k + d k b) := by
  unfold dStep updDist
  rcases lt_or_ge (d a k + d k b) (d a b) with h | h
  · simp [h, min_eq_right h.le]
  · simp [not_lt.mpr h, min_eq_left h]

lemma dStep_other (k : Nat) (d : Dist) (a b i j : Nat)
    (h : ¬(i = a ∧ j = b)) : dStep k d (a, b) i j = d i j := by
  unfold dStep updDist
  split <;> simp [h]

lemma foldl_dStep_char (k : Nat) (L : List (Nat × Nat)) :
    ∀ (d : Dist) (i j : Nat),
      (L.foldl (dStep k) d) i j =
        if (i, j) ∈ L then min (d i j) (d i k + d k j) else d i j := by
  induction L with
  | nil => intro d i j; simp
  | cons p L ih =>
    intro d i j
    obtain ⟨a, b⟩ := p
    rw [List.foldl_cons, ih, dStep_col, dStep_row]
    by_cases hp : i = a ∧ j = b
    · obtain ⟨rfl, rfl⟩ := hp
      rw [dStep_self]
      by_cases hmem : (i, j) ∈ L
      · rw [if_pos hmem, if_pos (List.mem_cons_self _ _), min_assoc, min_self]
      · rw [if_neg hmem, if_pos (List.mem_cons_self _ _)]
    · rw [dStep_other k d a b i j hp]
      have hne : (i, j) ≠ (a, b) := by
        intro hc
        exact hp ⟨congrArg Prod.fst hc, congrArg Prod.snd hc⟩
      by_cases hmem : (i, j) ∈ L
      · rw [if_pos hmem, if_pos (List.mem_cons_of_mem _ hmem)]
      · rw [if_neg hmem, if_neg (by
          intro hc
          rcases List.mem_cons.mp hc with h1 | h1
          · exact hne h1
          · exact hmem h1)]

lemma mem_allPairs (n i j : Nat) : (i, j) ∈ allPairs n ↔ i < n ∧ j < n := by
  simp [allPairs, List.mem_flatMap, List.mem_map, List.mem_range]

lemma pass_eq (n k : Nat) (d : Dist) :
    (allPairs n).foldl (dStep k) d = purePass n k d := by
  funext i j
  rw [foldl_dStep_char]
  unfold purePass
  by_cases h : i < n ∧ j < n
  · rw [if_pos ((mem_allPairs n i j).mpr h), if_pos h]
  · rw [if_neg (fun hc => h ((mem_allPairs n i j).mp hc)), if_neg h]

lemma foldl_flatMap_decomp {α β γ : Type} (f : γ → β → γ) (g : α → List β) :
    ∀ (l : List α) (c : γ),
      ((l.flatMap g).foldl f c) = l.foldl (fun c a => (g a).foldl f c) c := by
  intro l
  induction l with
  | nil => intro c; rfl
  | cons a l ih => intro c; simp [List.foldl_append, ih]

lemma foldl_fst_proj {α : Type} (F : (Dist × Nav) → α → (Dist × Nav))
    (G : Dist → α → Dist) (h : ∀ st a, (F st a).1 = G st.1 a) :
    ∀ (l : List α) (st : Dist × Nav), (l.foldl F st).1 = l.foldl G st.1 := by
  intro l
  induction l with
  | nil => intro st; rfl
  | cons a l ih => intro st; rw [List.foldl_cons, List.foldl_cons, ih, h]

lemma update_navmap_fst (n : Nat) (ls : List LineSpec) :
    (update_navmap n ls).1 =
      (List.range n).foldl (fun d k => purePass n k d)
        (ls.foldl fillLine (initState n)).1 := by
  unfold update_navmap triples
  rw [foldl_flatMap_decomp]
  rw [foldl_fst_proj
    (fun st k => ((allPairs n).map fun p => (k, p.1, p.2)).foldl fwStep st)
    (fun d k => purePass n k d)]
  intro st k
  rw [List.foldl_map]
  rw [foldl_fst_proj (fun st p => fwStep st (k, p.1, p.2)) (dStep k)]
  · exact pass_eq n k st.1
  · intro st p
    rw [fwStep_fst]

lemma triOn_mono (n : Nat) (K K' : Nat → Prop) (d : Dist)
    (hsub : ∀ k, K' k → K k) (h : TriOn n K d) : TriOn n K' d :=
  fun k hk => h k (hsub k hk)

lemma triOn_pass (n m : Nat) (K : Nat → Prop) (d : Dist) (hm : m < n)
    (hK : ∀ k, K k → k < n) (h : TriOn n K d) :
    TriOn n (fun k => k = m ∨ K k) (purePass n m d) := by
  intro k hk i j hi hj
  have Aij : purePass n m d i j = min (d i j) (d i m + d m j) := by
    unfold purePass
    rw [if_pos ⟨hi, hj⟩]
  rcases hk with rfl | hkK
  · have A1 : purePass n k d i k = d i k := by
      unfold purePass
      rw [if_pos ⟨hi, hm⟩]
      exact min_eq_left le_self_add
    have A2 : purePass n k d k j = d k j := by
      unfold purePass
      rw [if_pos ⟨hm, hj⟩]
      exact min_eq_left le_add_self
    rw [Aij, A1, A2]
    exact min_le_right _ _
  · have hkn := hK k hkK
    have Aik : purePass n m d i k = min (d i k) (d i m + d m k) := by
      unfold purePass
      rw [if_pos ⟨hi, hkn⟩]
    have Akj : purePass n m d k j = min (d k j) (d k m + d m j) := by
      unfold purePass
      rw [if_pos ⟨hkn, hj⟩]
    rw [Aij, Aik, Akj]
    rcases min_choice (d i k) (d i m + d m k) with h1 | h1 <;>
      rcases min_choice (d k j) (d k m + d m j) with h2 | h2 <;> rw [h1, h2]
    · exact le_trans (min_le_left _ _) (h k hkK i j hi hj)
    · calc min (d i j) (d i m + d m j) ≤ d i m + d m j := min_le_right _ _
        _ ≤ (d i k + d k m) + d m j := add_le_add_right (h k hkK i m hi hm) _
        _ = d i k + (d k m + d m j) := add_assoc _ _ _
    · calc min (d i j) (d i m + d m j) ≤ d i m + d m j := min_le_right _ _
        _ ≤ d i m + (d m k + d k j) := add_le_add_left (h k hkK m j hm hj) _
        _ = (d i m + d m k) + d k j := (add_assoc _ _ _).symm
    · calc min (d i j) (d i m + d m j) ≤ d i m + d m j := min_le_right _ _
        _ ≤ d i m + ((d m k + d k m) + d m j) := add_le_add_left le_add_self _
        _ = (d i m + d m k) + (d k m + d m j) := by
            rw [add_assoc (d m k) (d k m) (d m j), ← add_assoc]

lemma triOn_fold (n : Nat) :
    ∀ (ks : List Nat) (d : Dist) (K : Nat → Prop),
      (∀ k ∈ ks, k < n) → (∀ k, K k → k < n) → TriOn n K d →
      TriOn n (fun k => k ∈ ks ∨ K k)
        (ks.foldl (fun d k => purePass n k d) d) := by
  intro ks
  induction ks with
  | nil =>
    intro d K _ _ h
    exact triOn_mono n K _ d (fun k hk => by
      rcases hk with hk | hk
      · exact absurd hk (List.not_mem_nil k)
      · exact hk) h
  | cons m ks ih =>
    intro d K hks hK h
    have hm : m < n := hks m (List.mem_cons_self _ _)
    have step := triOn_pass n m K d hm hK h
    have hK2 : ∀ k, (k = m ∨ K k) → k < n := by
      intro k hk
      rcases hk with rfl | hk
      · exact hm
      · exact hK k hk
    have res := ih (purePass n m d) (fun k => k = m ∨ K k)
      (fun k hk => hks k (List.mem_cons_of_mem _ hk)) hK2 step
    rw [List.foldl_cons]
    exact triOn_mono n _ _ _ (fun k hk => by
      rcases hk with hk | hk
      · rcases List.mem_cons.mp hk with rfl | hk2
        · exact Or.inr (Or.inl rfl)
        · exact Or.inl hk2
      · exact Or.inr (Or.inr hk)) res

lemma foldl_preserve_mem {σ α : Type} (P : σ → Prop) (f : σ → α → σ) :
    ∀ (l : List α), (∀ a ∈ l, ∀ st, P st → P (f st a)) →
      ∀ st, P st → P (l.foldl f st) := by
  intro l
  induction l with
  | nil => intro _ st h; exact h
  | cons a l ih =>
    intro hf st h
    rw [List.foldl_cons]
    exact ih (fun b hb st2 h2 => hf b (List.mem_cons_of_mem _ hb) st2 h2)
      (f st a) (hf a (List.mem_cons_self _ _) st h)

lemma initState_diagInv (n : Nat) : DiagInv (initState n) := by
  refine ⟨fun x => by simp [initState], fun x y h => ?_, fun _ => rfl⟩
  by_cases hxy : x = y
  · exact hxy
  · exfalso
    unfold initState at h
    simp [hxy] at h

lemma diagInv_upd (st : Dist × Nav) (a b : Nat) (s : Finset (Nat × Int))
    (hab : a ≠ b) (h : DiagInv st) :
    DiagInv (updDist st.1 a b 1, updNav st.2 a b s) := by
  obtain ⟨h1, h2, h3⟩ := h
  refine ⟨fun x => ?_, fun x y hxy => ?_, fun x => ?_⟩
  · unfold updDist
    have : ¬(x = a ∧ x = b) := fun hc => hab (hc.1 ▸ hc.2 ▸ rfl)
    simp only [this, if_false]
    exact h1 x
  · unfold updDist at hxy
    by_cases hc : x = a ∧ y = b
    · simp only [hc, if_true] at hxy
      exact absurd hxy one_ne_zero
    · simp only [hc, if_false] at hxy
      exact h2 x y hxy
  · unfold updNav
    have : ¬(x = a ∧ x = b) := fun hc => hab (hc.1 ▸ hc.2 ▸ rfl)
    simp only [this, if_false]
    exact h3 x

lemma fillPair_diagInv (c : Nat) (dirs : Finset Int) (st : Dist × Nav)
    (i : Nat) (h : DiagInv st) : DiagInv (fillPair c dirs st i) := by
  unfold fillPair
  by_cases h1 : (1 : Int) ∈ dirs <;> by_cases h2 : (-1 : Int) ∈ dirs <;>
    simp only [h1, h2, if_true, if_false]
  · exact diagInv_upd _ (i+1) i _ (Nat.succ_ne_self i)
      (diagInv_upd st i (i+1) _ (Nat.succ_ne_self i).symm h)
  · exact diagInv_upd st i (i+1) _ (Nat.succ_ne_self i).symm h
  · exact diagInv_upd st (i+1) i _ (Nat.succ_ne_self i) h
  · exact h

lemma fillLine_diagInv (st : Dist × Nav) (ls : LineSpec) (h : DiagInv st) :
    DiagInv (fillLine st ls) :=
  foldl_preserve_mem DiagInv (fillPair ls.color (lineDirections ls)) _
    (fun a _ st2 h2 => fillPair_diagInv _ _ st2 a h2) st h

lemma fwStep_diagInv (st : Dist × Nav) (t : Nat × Nat × Nat)
    (h : DiagInv st) : DiagInv (fwStep st t) := by
  obtain ⟨h1, h2, h3⟩ := h
  obtain ⟨k, i, j⟩ := t
  have hnv1 : ∀ x,
      (if st.1 i j = st.1 i k + st.1 k j then
        updNav st.2 i j (st.2 i j ∪ st.2 i k) else st.2) x x = ∅ := by
    intro x
    split
    · next htie =>
      simp only [updNav]
      by_cases hc : x = i ∧ x = j
      · rw [if_pos hc]
        obtain ⟨hxi, hxj⟩ := hc
        rw [← hxi, ← hxj, h1 x] at htie
        have hz : st.1 x k = 0 := (add_eq_zero.mp htie.symm).1
        have hxk : x = k := h2 x k hz
        rw [← hxi, ← hxj, ← hxk, h3 x]
        simp
      · rw [if_neg hc]
        exact h3 x
    · exact h3 x
  by_cases hstrict : st.1 i k + st.1 k j < st.1 i j
  · have hfw : fwStep st (k, i, j) =
        (updDist st.1 i j (st.1 i k + st.1 k j),
         updNav (if st.1 i j = st.1 i k + st.1 k j then
            updNav st.2 i j (st.2 i j ∪ st.2 i k) else st.2) i j
           ((if st.1 i j = st.1 i k + st.1 k j then
            updNav st.2 i j (st.2 i j ∪ st.2 i k) else st.2) i k)) := by
      unfold fwStep
      rw [if_pos hstrict]
    rw [hfw]
    have hij : i ≠ j := by
      intro hc
      subst hc
      rw [h1 i] at hstrict
      exact absurd hstrict (not_lt.mpr (zero_le _))
    refine ⟨fun x => ?_, fun x y hxy => ?_, fun x => ?_⟩
    · show updDist st.1 i j (st.1 i k + st.1 k j) x x = 0
      simp only [updDist]
      rw [if_neg (fun hc => hij ((hc.1).symm.trans hc.2))]
      exact h1 x
    · replace hxy : updDist st.1 i j (st.1 i k + st.1 k j) x y = 0 := hxy
      simp only [updDist] at hxy
      by_cases hc : x = i ∧ y = j
      · rw [if_pos hc] at hxy
        rcases add_eq_zero.mp hxy with ⟨hz1, hz2⟩
        rw [hc.1, hc.2]
        exact (h2 i k hz1).trans (h2 k j hz2)
      · rw [if_neg hc] at hxy
        exact h2 x y hxy
    · show updNav _ i j _ x x = ∅
      simp only [updNav]
      rw [if_neg (fun hc => hij ((hc.1).symm.trans hc.2))]
      exact hnv1 x
  · have hfw : fwStep st (k, i, j) =
        (st.1, if st.1 i j = st.1 i k + st.1 k j then
            updNav st.2 i j (st.2 i j ∪ st.2 i k) else st.2) := by
      unfold fwStep
      rw [if_neg hstrict]
    rw [hfw]
    exact ⟨h1, h2, hnv1⟩

lemma update_navmap_diagInv (n : Nat) (ls : List LineSpec) :
    DiagInv (update_navmap n ls) := by
  unfold update_navmap
  exact foldl_preserve_mem DiagInv fwStep _
    (fun t _ st h => fwStep_diagInv st t h) _
    (foldl_preserve_mem DiagInv fillLine _
      (fun a _ st h => fillLine_diagInv st a h) _ (initState_diagInv n))

lemma update_navmap_nav_diag (n : Nat) (ls : List LineSpec) (x : Nat) :
    (update_navmap n ls).2 x x = ∅ :=
  (update_navmap_diagInv n ls).2.2 x

lemma purePass_bwd (n k : Nat) (d : Dist) (h : Bwd d) : Bwd (purePass n k d) := by
  intro x y hyx
  unfold purePass
  split
  · rw [h x y hyx]
    rcases lt_or_ge k x with hk | hk
    · rw [h x k hk]
      simp
    · have hky : y < k := lt_of_lt_of_le hyx hk
      rw [h k y hky]
      simp
  · exact h x y hyx

lemma fillPair_bwd (c : Nat) (dirs : Finset Int) (st : Dist × Nav) (i : Nat)
    (hdir : (-1 : Int) ∉ dirs) (h : Bwd st.1) : Bwd (fillPair c dirs st i).1 := by
  unfold fillPair
  simp only [hdir, if_false]
  by_cases h1 : (1 : Int) ∈ dirs
  · simp only [h1, if_true]
    intro x y hyx
    unfold updDist
    have : ¬(x = i ∧ y = i + 1) := by
      intro hc
      rw [hc.1, hc.2] at hyx
      exact absurd hyx (by omega)
    simp only [this, if_false]
    exact h x y hyx
  · simp only [h1, if_false]
    exact h

lemma update_navmap_bwd (n : Nat) (ls : List LineSpec)
    (hls : ∀ l ∈ ls, (-1 : Int) ∉ lineDirections l) :
    Bwd (update_navmap n ls).1 := by
  have hinit : Bwd (initState n).1 := by
    intro x y hyx
    unfold initState
    simp [Nat.ne_of_gt hyx]
  have hfill : Bwd (ls.foldl fillLine (initState n)).1 := by
    refine foldl_preserve_mem (fun st => Bwd st.1) fillLine ls ?_ _ hinit
    intro l hl st h
    exact foldl_preserve_mem (fun st => Bwd st.1)
      (fillPair l.color (lineDirections l)) _
      (fun a _ st2 h2 => fillPair_bwd _ _ st2 a (hls l hl) h2) st h
  rw [update_navmap_fst]
  exact foldl_preserve_mem Bwd (fun d k => purePass n k d) _
    (fun k _ d h => purePass_bwd n k d h) _ hfill

lemma update_navmap_triangle (n : Nat) (ls : List LineSpec) (i j k : Nat)
    (hi : i < n) (hj : j < n) (hk : k < n) :
    (update_navmap n ls).1 i j ≤
      (update_navmap n ls).1 i k + (update_navmap n ls).1 k j := by
  rw [update_navmap_fst]
  have base : TriOn n (fun _ => False) (ls.foldl fillLine (initState n)).1 :=
    fun _ hf => absurd hf (fun h => h)
  have := triOn_fold n (List.range n) (ls.foldl fillLine (initState n)).1
    (fun _ => False) (fun a ha => List.mem_range.mp ha) (fun _ hf => absurd hf (fun h => h))
    base
  exact this k (Or.inl (List.mem_range.mpr hk)) i j hi hj

/-- Claim C4: after every `NavigationMap` rebuild, for all stations `i`, `j`,
`k`, `distance(i,j) ≤ distance(i,k) + distance(k,j)`, and
`distance(i,i) = 0`. -/
theorem claim_C4 (n : Nat) (ls : List LineSpec) (i j k : Nat)
    (hi : i < n) (hj : j < n) (hk : k < n) :
    (update_navmap n ls).1 i j ≤
        (update_navmap n ls).1 i k + (update_navmap n ls).1 k j ∧
      (update_navmap n ls).1 i i = 0 :=
  ⟨update_navmap_triangle n ls i j k hi hj hk,
   (update_navmap_diagInv n ls).1 i⟩

/-- Witness for C4: the rebuilt map of a one-station city with no lines,
at `i = j = k = 0`. -/
theorem claim_C4_witness :
    (0 : Nat) < 1 ∧
      ((update_navmap 1 []).1 0 0 ≤
          (update_navmap 1 []).1 0 0 + (update_navmap 1 []).1 0 0 ∧
        (update_navmap 1 []).1 0 0 = 0) :=
  ⟨Nat.one_pos, claim_C4 1 [] 0 0 0 Nat.one_pos Nat.one_pos Nat.one_pos⟩

lemma fillPair_noNeg (c : Nat) (dirs : Finset Int) (st : Dist × Nav)
    (i : Nat) (hdir : (-1 : Int) ∉ dirs) (h : NoNeg st.2) :
    NoNeg (fillPair c dirs st i).2 := by
  unfold fillPair
  simp only [hdir, if_false]
  by_cases h1 : (1 : Int) ∈ dirs
  · simp only [h1, if_true]
    intro x y c2
    unfold updNav
    split
    · intro hc
      rcases Finset.mem_insert.mp hc with hc | hc
      · have : (1 : Int) = -1 := congrArg Prod.snd hc |>.symm
        exact absurd this (by decide)
      · exact h i (i + 1) c2 hc
    · exact h x y c2
  · simp only [h1, if_false]
    exact h

lemma fwStep_noNeg (st : Dist × Nav) (t : Nat × Nat × Nat)
    (h : NoNeg st.2) : NoNeg (fwStep st t).2 := by
  obtain ⟨k, i, j⟩ := t
  have hnv1 : NoNeg (if st.1 i j = st.1 i k + st.1 k j then
      updNav st.2 i j (st.2 i j ∪ st.2 i k) else st.2) := by
    split
    · intro x y c
      unfold updNav
      split
      · intro hc
        rcases Finset.mem_union.mp hc with hc | hc
        · exact h i j c hc
        · exact h i k c hc
      · exact h x y c
    · exact h
  unfold fwStep
  dsimp only
  split
  · intro x y c
    show (c, (-1 : Int)) ∉ updNav _ i j _ x y
    unfold updNav
    split
    · exact hnv1 i k c
    · exact hnv1 x y c
  · exact hnv1

lemma update_navmap_noNeg (n : Nat) (ls : List LineSpec)
    (hls : ∀ l ∈ ls, (-1 : Int) ∉ lineDirections l) :
    NoNeg (update_navmap n ls).2 := by
  have hinit : NoNeg (initState n).2 := fun x y c => Finset.not_mem_empty _
  have hfill : NoNeg (ls.foldl fillLine (initState n)).2 := by
    refine foldl_preserve_mem (fun st => NoNeg st.2) fillLine ls ?_ _ hinit
    intro l hl st h
    exact foldl_preserve_mem (fun st => NoNeg st.2)
      (fillPair l.color (lineDirections l)) _
      (fun a _ st2 h2 => fillPair_noNeg _ _ st2 a (hls l hl) h2) st h
  unfold update_navmap
  exact foldl_preserve_mem (fun st => NoNeg st.2) fwStep _
    (fun t _ st h => fwStep_noNeg st t h) _ hfill

/-- Claim C1: on a circular line of 4 stations whose only train runs in
direction `+1`, the spec expects the `-1` edges to be absent and
`distance(i, (i-1) mod 4) = 3`.  The `-1` edges (and `-1` route options)
are indeed absent, but the code iterates only over consecutive index
pairs (`range(len(station_idxs)-1)`), so the wrap-around edge `3 → 0` of
the ring is never created either: for `i = 1, 2, 3` the distance to
station `i - 1` is infinite, not 3. -/
theorem claim_C1 :
    (∀ x y c, (c, (-1 : Int)) ∉ (update_navmap 4 [⟨4, true, {1}, 0⟩]).2 x y) ∧
      (update_navmap 4 [⟨4, true, {1}, 0⟩]).1 1 0 = ⊤ ∧
      (update_navmap 4 [⟨4, true, {1}, 0⟩]).1 2 1 = ⊤ ∧
      (update_navmap 4 [⟨4, true, {1}, 0⟩]).1 3 2 = ⊤ ∧
      (update_navmap 4 [⟨4, true, {1}, 0⟩]).1 1 0 ≠ 3 := by
  have hdirs : ∀ l ∈ [(⟨4, true, {1}, 0⟩ : LineSpec)],
      (-1 : Int) ∉ lineDirections l := by
    intro l hl
    rcases List.mem_singleton.mp hl with rfl
    unfold lineDirections
    decide
  have hb : Bwd (update_navmap 4 [⟨4, true, {1}, 0⟩]).1 :=
    update_navmap_bwd 4 _ hdirs
  refine ⟨update_navmap_noNeg 4 _ hdirs, hb 1 0 Nat.zero_lt_one,
    hb 2 1 Nat.one_lt_two, hb 3 2 (by omega), ?_⟩
  rw [hb 1 0 Nat.zero_lt_one]
  decide

/-! ## Lemmas about the line topology -/

/-- Claim C3: the claim says that after `make_circular()` a line with ≥ 2
nodes satisfies `is_circular() = true`.  But `make_circular` stores the
head/tail `Station` objects (`.station`) in the link fields instead of the
`Station_Node`s, and `is_circular` compares the tail's `next_node` with
the head *node* object, so it stays `False`.  Evaluated on a 2-station
line (the `break_circular` half of the claim does hold). -/
theorem claim_C3 :
    (make_circular (mkChain [0, 1])).map is_circular = .ok false ∧
      (break_circular (mkChain [0, 1])).map is_circular = .ok false := by
  decide

lemma find?_beq_self {l : List Nat} {m : Nat} (h : m ∈ l) :
    l.find? (fun i => i == m) = some m := by
  induction l with
  | nil => cases h
  | cons a l ih =>
    by_cases ha : a = m
    · subst ha
      simp [List.find?]
    · have hb : (a == m) = false := by
        simp [ha]
      simp only [List.find?_cons, hb]
      rcases List.mem_cons.mp h with h1 | h1
      · exact absurd h1.symm ha
      · exact ih h1

lemma find_node_chain (ss : List Nat) (m : Nat) (hm : m < ss.length) :
    (mkChain ss).nodes.find? (fun nd => nd.id == m) = some (chainNode ss m) := by
  show ((List.range ss.length).map (chainNode ss)).find?
    (fun nd => nd.id == m) = some (chainNode ss m)
  rw [List.find?_map]
  have hpred : ((fun nd => SNode.id nd == m) ∘ chainNode ss) =
      fun i => i == m := rfl
  rw [hpred, find?_beq_self (List.mem_range.mpr hm)]
  rfl

lemma mem_mkChain (ss : List Nat) (i : Nat) (hi : i < ss.length) :
    chainNode ss i ∈ (mkChain ss).nodes :=
  List.mem_map_of_mem (chainNode ss) (List.mem_range.mpr hi)

lemma length_mkChain (ss : List Nat) : (mkChain ss).nodes.length = ss.length := by
  simp [mkChain]

lemma mkChain_built : (do
    let r1 ← add_station ⟨[], 0⟩ 7 (-1)
    let r2 ← add_station r1.2 8 (-1)
    add_station r2.2 9 (-1) : Except PyErr (Bool × LineT)) =
    Except.ok (true, mkChain [7, 8, 9]) := by
  decide

/-- Counterexample to claim C2 as stated: on a non-circular 2-station chain,
`next_station` at the *last* node with direction `+1` does not return that
node with direction `-1`; it dereferences `None.next_node` and raises
`AttributeError`. -/
theorem claim_C2_counterexample :
    next_station (mkChain [7, 8]) (chainNode [7, 8] 1) 1 ≠
        Except.ok (some 1, -1) ∧
      next_station (mkChain [7, 8]) (chainNode [7, 8] 1) 1 =
        Except.error .attributeError := by
  decide

/-- Claim C2 (amended): on every non-circular chain with at least two nodes
the bounce happens one call *earlier* than the claim states: calling
`next_station` at the node *before* the last with `+1` returns the last
node with the direction already flipped to `-1` (no node skipped), and
symmetrically returns the head node with `+1` when called at the node
after the head with `-1`; calling it exactly at the last node with `+1`
(or at the head with `-1`) raises `AttributeError`. -/
theorem claim_C2 (ss : List Nat) (h : 2 ≤ ss.length) :
    next_station (mkChain ss) (chainNode ss (ss.length - 2)) 1 =
        Except.ok (some (ss.length - 1), -1) ∧
      next_station (mkChain ss) (chainNode ss 1) (-1) =
        Except.ok (some 0, 1) ∧
      next_station (mkChain ss) (chainNode ss (ss.length - 1)) 1 =
        Except.error .attributeError ∧
      next_station (mkChain ss) (chainNode ss 0) (-1) =
        Except.error .attributeError := by
  have hlen : (mkChain ss).nodes.length = ss.length := length_mkChain ss
  have hlen1 : ¬((mkChain ss).nodes.length = 1) := by omega
  have hlast : (chainNode ss (ss.length - 1)).next_node = none := by
    simp [chainNode]
  have hhead : (chainNode ss 0).previous_node = none := by
    simp [chainNode]
  refine ⟨?_, ?_, ?_, ?_⟩
  · have hmem := mem_mkChain ss (ss.length - 2) (by omega)
    have hnext : (chainNode ss (ss.length - 2)).next_node =
        some (.node (ss.length - 2 + 1)) := by
      simp [chainNode, show ¬(ss.length - 2 = ss.length - 1) by omega]
    have h21 : ss.length - 2 + 1 = ss.length - 1 := by omega
    unfold next_station
    rw [if_neg (not_not_intro hmem), if_neg hlen1, if_pos rfl, hnext, h21]
    simp only [find_node_chain ss (ss.length - 1) (by omega)]
    simp [hlast]
  · have hmem := mem_mkChain ss 1 (by omega)
    have hprev : (chainNode ss 1).previous_node = some (.node 0) := by
      simp [chainNode]
    unfold next_station
    rw [if_neg (not_not_intro hmem), if_neg hlen1,
      if_neg (show ¬((-1 : Int) = 1) by decide), if_pos rfl, hprev]
    simp only [find_node_chain ss 0 (by omega)]
    simp [hhead]
  · have hmem := mem_mkChain ss (ss.length - 1) (by omega)
    unfold next_station
    rw [if_neg (not_not_intro hmem), if_neg hlen1, if_pos rfl, hlast]
  · have hmem := mem_mkChain ss 0 (by omega)
    unfold next_station
    rw [if_neg (not_not_intro hmem), if_neg hlen1,
      if_neg (show ¬((-1 : Int) = 1) by decide), if_pos rfl, hhead]

lemma except_bind_ok {ε α β : Type} (a : α) (f : α → Except ε β) :
    (Except.ok a >>= f) = f a := rfl

lemma except_bind_error {ε α β : Type} (e : ε) (f : α → Except ε β) :
    ((Except.error e : Except ε α) >>= f) = Except.error e := rfl

lemma pyGet_ok {α : Type} (l : List α) (i : Int) (h1 : -(l.length : Int) ≤ i)
    (h2 : i < (l.length : Int)) : ∃ a, pyGet l i = Except.ok a := by
  unfold pyGet
  by_cases h0 : 0 ≤ i
  · rw [if_pos h0]
    have hlt : i.toNat < l.length := by omega
    rw [List.get?_eq_get hlt]
    exact ⟨_, rfl⟩
  · rw [if_neg h0, if_pos (by omega)]
    have hlt : ((l.length : Int) + i).toNat < l.length := by omega
    rw [List.get?_eq_get hlt]
    exact ⟨_, rfl⟩

lemma pyGet_error {α : Type} (l : List α) (i : Int)
    (h : i < -(l.length : Int) ∨ (l.length : Int) ≤ i) :
    pyGet l i = Except.error .indexError := by
  unfold pyGet
  by_cases h0 : 0 ≤ i
  · rw [if_pos h0]
    have hge : l.length ≤ i.toNat := by omega
    rw [List.get?_eq_none.mpr hge]
  · rw [if_neg h0]
    rw [if_neg (by omega)]

/-- Witness for C2: the 3-station chain `[7, 8, 9]`. -/
theorem claim_C2_witness :
    2 ≤ ([7, 8, 9] : List Nat).length ∧
      (next_station (mkChain [7, 8, 9]) (chainNode [7, 8, 9] 1) 1 =
          Except.ok (some 2, -1) ∧
        next_station (mkChain [7, 8, 9]) (chainNode [7, 8, 9] 1) (-1) =
          Except.ok (some 0, 1) ∧
        next_station (mkChain [7, 8, 9]) (chainNode [7, 8, 9] 2) 1 =
          Except.error .attributeError ∧
        next_station (mkChain [7, 8, 9]) (chainNode [7, 8, 9] 0) (-1) =
          Except.error .attributeError) :=
  ⟨by decide, claim_C2 [7, 8, 9] (by decide)⟩

lemma add_station_eval (l : LineT) (s : Nat) (p : Int) :
    if (l.nodes.length = 0 ∧ p ≤ 0) ∨
        (1 ≤ l.nodes.length ∧ s ∉ l.nodes.map (fun nd => nd.station) ∧
          -2 ≤ p ∧ p ≤ (l.nodes.length : Int) ∧
          (p = -2 → 3 ≤ l.nodes.length)) then
      addSucceeded (add_station l s p) = true
    else if 1 ≤ l.nodes.length ∧ l.nodes.length ≤ 2 ∧ p = -2 ∧
        s ∉ l.nodes.map (fun nd => nd.station) then
      add_station l s p = Except.error .indexError
    else add_station l s p = Except.ok (false, l) := by
  by_cases h1 : l.nodes.length = 0 ∧ p ≤ 0
  · rw [if_pos (Or.inl h1)]
    unfold add_station
    rw [if_pos h1]
    rfl
  · by_cases h2 : s ∈ l.nodes.map (fun nd => nd.station)
    · rw [if_neg ?_, if_neg ?_]
      · unfold add_station
        rw [if_neg h1, if_pos h2]
      · intro hc
        exact hc.2.2.2 h2
      · intro hc
        rcases hc with hc | hc
        · exact h1 hc
        · exact hc.2.1 h2
    · by_cases h3 : p < -2 ∨ p > (l.nodes.length : Int)
      · rw [if_neg ?_, if_neg ?_]
        · unfold add_station
          rw [if_neg h1, if_neg h2, if_pos h3]
        · intro hc
          omega
        · intro hc
          rcases hc with hc | hc
          · exact h1 hc
          · omega
      · have hlen1 : 1 ≤ l.nodes.length := by
          by_cases hz : l.nodes.length = 0
          · exfalso
            omega
          · omega
        have hne : l.nodes ≠ [] := by
          intro hnil
          rw [hnil] at hlen1
          exact absurd hlen1 (by decide)
        by_cases h4 : p = -1 ∨ p = (l.nodes.length : Int)
        · rw [if_pos (Or.inr ⟨hlen1, h2, by omega, by omega, by omega⟩)]
          obtain ⟨tl, htl⟩ : ∃ tl, l.nodes.getLast? = some tl :=
            ⟨_, List.getLast?_eq_getLast _ hne⟩
          unfold add_station
          rw [if_neg h1, if_neg h2, if_neg h3, if_pos h4, htl]
          rfl
        · by_cases h5 : p = 0
          · rw [if_pos (Or.inr ⟨hlen1, h2, by omega, by omega, by omega⟩)]
            obtain ⟨hd, hhd⟩ : ∃ hd, l.nodes.head? = some hd :=
              ⟨_, List.head?_eq_head hne⟩
            unfold add_station
            rw [if_neg h1, if_neg h2, if_neg h3, if_neg h4, if_pos h5, hhd]
            rfl
          · by_cases hp2 : p = -2
            · by_cases hlen3 : 3 ≤ l.nodes.length
              · rw [if_pos (Or.inr ⟨hlen1, h2, by omega, by omega,
                  fun _ => hlen3⟩)]
                obtain ⟨a, ha⟩ := pyGet_ok l.nodes (p - 1) (by omega) (by omega)
                obtain ⟨b, hb⟩ := pyGet_ok l.nodes p (by omega) (by omega)
                unfold add_station
                rw [if_neg h1, if_neg h2, if_neg h3, if_neg h4, if_neg h5]
                rw [show (do
                  let prv ← pyGet l.nodes (p - 1)
                  let nxt ← pyGet l.nodes p
                  Except.ok (true, (⟨pyInsert
                    (setNext (setPrev l.nodes nxt.id (some (.node l.fresh)))
                      prv.id (some (.node l.fresh))) p
                    ⟨l.fresh, s, some (.node prv.id), some (.node nxt.id)⟩,
                    l.fresh + 1⟩ : LineT)) : Except PyErr (Bool × LineT)) =
                  Except.ok (true, _) from by rw [ha, except_bind_ok, hb,
                    except_bind_ok]]
                rfl
              · rw [if_neg ?_, if_pos ⟨hlen1, by omega, hp2, h2⟩]
                · unfold add_station
                  rw [if_neg h1, if_neg h2, if_neg h3, if_neg h4, if_neg h5]
                  rw [show pyGet l.nodes (p - 1) =
                    Except.error .indexError from
                      pyGet_error l.nodes (p - 1) (by omega)]
                  rfl
                · intro hc
                  rcases hc with hc | hc
                  · exact h1 hc
                  · omega
            · rw [if_pos (Or.inr ⟨hlen1, h2, by omega, by omega, by omega⟩)]
              obtain ⟨a, ha⟩ := pyGet_ok l.nodes (p - 1) (by omega) (by omega)
              obtain ⟨b, hb⟩ := pyGet_ok l.nodes p (by omega) (by omega)
              unfold add_station
              rw [if_neg h1, if_neg h2, if_neg h3, if_neg h4, if_neg h5]
              rw [ha, except_bind_ok, hb, except_bind_ok]
              rfl

/-- Counterexample to claim C8 as stated: inserting into an *empty* line
with position `1` fails (returns `False`) although the claim says an empty
line ignores the position and succeeds; moreover position `-2` on a
3-station line is accepted (not an `InvalidPosition` failure), and on a
2-station line it raises `IndexError` instead of failing cleanly. -/
theorem claim_C8_counterexample :
    add_station ⟨[], 0⟩ 5 1 = Except.ok (false, ⟨[], 0⟩) ∧
      addSucceeded (add_station (mkChain [1, 2, 3]) 9 (-2)) = true ∧
      add_station (mkChain [1, 2]) 9 (-2) = Except.error .indexError := by
  decide

/-- Claim C8 (amended): `insert(station, position)` succeeds exactly when
the line is empty and `position ≤ 0` (an empty line accepts only
non-positive positions, not every position), or the line is non-empty, the
station is not yet on the line, `-2 ≤ position ≤ length`, and
`position = -2` only on lines with at least 3 nodes; it raises
`IndexError` exactly when the station is new, `position = -2` and the line
has 1 or 2 nodes; any other call fails (`False`) and leaves the line
unchanged (a failed insert is a no-op; `AlreadyOnLine` and
`InvalidPosition` both surface as the `False` return). -/
theorem claim_C8 (l : LineT) (s : Nat) (p : Int) :
    (addSucceeded (add_station l s p) = true ↔
      ((l.nodes.length = 0 ∧ p ≤ 0) ∨
        (1 ≤ l.nodes.length ∧ s ∉ l.nodes.map (fun nd => nd.station) ∧
          -2 ≤ p ∧ p ≤ (l.nodes.length : Int) ∧
          (p = -2 → 3 ≤ l.nodes.length)))) ∧
      (add_station l s p = Except.error .indexError ↔
        (1 ≤ l.nodes.length ∧ l.nodes.length ≤ 2 ∧ p = -2 ∧
          s ∉ l.nodes.map (fun nd => nd.station))) ∧
      (∀ l', add_station l s p = Except.ok (false, l') → l' = l) := by
  have hev := add_station_eval l s p
  by_cases hA : (l.nodes.length = 0 ∧ p ≤ 0) ∨
      (1 ≤ l.nodes.length ∧ s ∉ l.nodes.map (fun nd => nd.station) ∧
        -2 ≤ p ∧ p ≤ (l.nodes.length : Int) ∧
        (p = -2 → 3 ≤ l.nodes.length))
  · rw [if_pos hA] at hev
    have hshape : ∃ l2, add_station l s p = Except.ok (true, l2) := by
      cases hr : add_station l s p with
      | ok v =>
        obtain ⟨b, l2⟩ := v
        cases b with
        | true => exact ⟨l2, rfl⟩
        | false =>
          rw [hr] at hev
          simp [addSucceeded] at hev
      | error e =>
        rw [hr] at hev
        simp [addSucceeded] at hev
    obtain ⟨l2, hsh⟩ := hshape
    refine ⟨⟨fun _ => hA, fun _ => hev⟩, ⟨?_, ?_⟩, ?_⟩
    · intro he
      rw [hsh] at he
      simp at he
    · intro hc
      rcases hA with hA | hA
      · exact absurd hc.1 (by omega)
      · exact absurd (hA.2.2.2.2 hc.2.2.1) (by omega)
    · intro l' h
      rw [hsh] at h
      simp at h
  · rw [if_neg hA] at hev
    by_cases hB : 1 ≤ l.nodes.length ∧ l.nodes.length ≤ 2 ∧ p = -2 ∧
        s ∉ l.nodes.map (fun nd => nd.station)
    · rw [if_pos hB] at hev
      refine ⟨⟨?_, fun hc => absurd hc hA⟩, ⟨fun _ => hB, fun _ => hev⟩, ?_⟩
      · intro ht
        rw [hev] at ht
        simp [addSucceeded] at ht
      · intro l' h
        rw [hev] at h
        simp at h
    · rw [if_neg hB] at hev
      refine ⟨⟨?_, fun hc => absurd hc hA⟩, ⟨?_, fun hc => absurd hc hB⟩, ?_⟩
      · intro ht
        rw [hev] at ht
        simp [addSucceeded] at ht
      · intro he
        rw [hev] at he
        simp at he
      · intro l' h
        rw [hev] at h
        have h2 := Except.ok.inj h
        exact ((Prod.ext_iff).mp h2).2.symm

/-- Witness for C8: the amended characterisation applied to the 2-station
chain with station 9 at position `-2` (the `IndexError` case). -/
theorem claim_C8_witness :
    add_station (mkChain [1, 2]) 9 (-2) = Except.error .indexError :=
  (claim_C8 (mkChain [1, 2]) 9 (-2)).2.1.mpr (by decide)

/-! ## Lemmas about wagons and capacity -/

lemma evictExcess_eq (cap : Nat) : ∀ (n : Nat) (ps sps : List Nat),
    ps.length = n →
    evictExcess ps sps cap = (ps.take cap, sps ++ (ps.drop cap).reverse) := by
  intro n
  induction n using Nat.strong_induction_on with
  | _ n ih =>
    intro ps sps hn
    by_cases h : cap < ps.length
    · have hne : ps ≠ [] := by
        intro hnil
        rw [hnil] at h
        simp at h
      rw [evictExcess, dif_pos h]
      rw [ih ps.dropLast.length (by rw [List.length_dropLast]; omega)
        ps.dropLast _ rfl]
      have hsplit : ps.dropLast ++ [ps.getLast hne] = ps :=
        List.dropLast_append_getLast hne
      have hgl : ps.getLastD 0 = ps.getLast hne := by
        rw [List.getLastD_eq_getLast?, List.getLast?_eq_getLast ps hne]
        rfl
      have htake : ps.dropLast.take cap = ps.take cap := by
        rw [List.dropLast_eq_take, List.take_take]
        congr 1
        omega
      have hdrop : ps.drop cap = ps.dropLast.drop cap ++ [ps.getLast hne] := by
        conv_lhs => rw [← hsplit]
        rw [List.drop_append_eq_append_drop]
        have : cap - ps.dropLast.length = 0 := by
          rw [List.length_dropLast]
          omega
        rw [this]
        rfl
      rw [htake, hdrop, List.reverse_append, hgl]
      simp
    · rw [evictExcess, dif_neg h]
      rw [List.take_of_length_le (by omega), List.drop_eq_nil_of_le (by omega)]
      simp

/-- Claim C6: with `capacity = WAGON_CAPACITY * w` wagons, `remove_wagon`
fails exactly when the train is at the minimum of one wagon (leaving
everything unchanged); on success it removes one wagon's capacity and
evicts the most-recently-boarded passengers (popped from the end of the
onboard list, appended to the train's current/last-visited station's
list in pop order) until the onboard count is at most the new capacity;
whenever the count respected the old capacity it respects the new one
after the call. -/
theorem claim_C6 (w : Nat) (ps sps : List Nat) (hw : 1 ≤ w) :
    ((remove_wagon (WAGON_CAPACITY * w) ps sps).1 = false ↔ w = 1) ∧
      (w = 1 → remove_wagon (WAGON_CAPACITY * w) ps sps =
        (false, WAGON_CAPACITY * w, ps, sps)) ∧
      (2 ≤ w →
        remove_wagon (WAGON_CAPACITY * w) ps sps =
          (true, WAGON_CAPACITY * w - WAGON_CAPACITY,
            ps.take (WAGON_CAPACITY * w - WAGON_CAPACITY),
            sps ++ (ps.drop (WAGON_CAPACITY * w - WAGON_CAPACITY)).reverse)) ∧
      (ps.length ≤ WAGON_CAPACITY * w →
        (remove_wagon (WAGON_CAPACITY * w) ps sps).2.2.1.length ≤
          (remove_wagon (WAGON_CAPACITY * w) ps sps).2.1) := by
  have hdiv : WAGON_CAPACITY * w / WAGON_CAPACITY = w :=
    Nat.mul_div_cancel_left w (by decide)
  by_cases h1 : w = 1
  · subst h1
    have hcond : WAGON_CAPACITY * 1 / WAGON_CAPACITY ≤ 1 := by
      rw [hdiv]
    unfold remove_wagon
    rw [if_pos hcond]
    refine ⟨by simp, fun _ => rfl, fun h2 => absurd h2 (by omega), fun hle => ?_⟩
    exact hle
  · have hcond : ¬(WAGON_CAPACITY * w / WAGON_CAPACITY ≤ 1) := by
      rw [hdiv]
      omega
    have hev := evictExcess_eq (WAGON_CAPACITY * w - WAGON_CAPACITY)
      ps.length ps sps rfl
    unfold remove_wagon
    rw [if_neg hcond, hev]
    refine ⟨by simp [h1], fun h2 => absurd h2 h1, fun _ => rfl, fun _ => ?_⟩
    show (ps.take (WAGON_CAPACITY * w - WAGON_CAPACITY)).length ≤
      WAGON_CAPACITY * w - WAGON_CAPACITY
    rw [List.length_take]
    omega

/-- Witness for C6: a 2-wagon train (capacity 12) with 13 passengers. -/
theorem claim_C6_witness :
    1 ≤ 2 ∧
      (((remove_wagon (WAGON_CAPACITY * 2)
          [1, 2, 3, 4, 5, 6, 7, 8, 9, 10, 11, 12, 13] [90]).1 = false ↔
          2 = 1) ∧
        (2 = 1 → remove_wagon (WAGON_CAPACITY * 2)
          [1, 2, 3, 4, 5, 6, 7, 8, 9, 10, 11, 12, 13] [90] =
          (false, WAGON_CAPACITY * 2,
            [1, 2, 3, 4, 5, 6, 7, 8, 9, 10, 11, 12, 13], [90])) ∧
        (2 ≤ 2 → remove_wagon (WAGON_CAPACITY * 2)
          [1, 2, 3, 4, 5, 6, 7, 8, 9, 10, 11, 12, 13] [90] =
          (true, WAGON_CAPACITY * 2 - WAGON_CAPACITY,
            ([1, 2, 3, 4, 5, 6, 7, 8, 9, 10, 11, 12, 13] : List Nat).take
              (WAGON_CAPACITY * 2 - WAGON_CAPACITY),
            [90] ++ (([1, 2, 3, 4, 5, 6, 7, 8, 9, 10, 11, 12, 13] :
              List Nat).drop (WAGON_CAPACITY * 2 - WAGON_CAPACITY)).reverse)) ∧
        (([1, 2, 3, 4, 5, 6, 7, 8, 9, 10, 11, 12, 13] : List Nat).length ≤
            WAGON_CAPACITY * 2 →
          (remove_wagon (WAGON_CAPACITY * 2)
            [1, 2, 3, 4, 5, 6, 7, 8, 9, 10, 11, 12, 13] [90]).2.2.1.length ≤
            (remove_wagon (WAGON_CAPACITY * 2)
              [1, 2, 3, 4, 5, 6, 7, 8, 9, 10, 11, 12, 13] [90]).2.1)) :=
  ⟨by decide,
   claim_C6 2 [1, 2, 3, 4, 5, 6, 7, 8, 9, 10, 11, 12, 13] [90] (by decide)⟩

/-! ## Lemmas about passenger creation and router order -/

/-- Claim C7: passengers spawned at a station do get a destination different
from the origin (the spawn loop redraws *while* the draw equals the
station), but the claim also covers the default (randomly drawn)
destination of `Passenger.__init__`, whose loop guard is inverted
(`while destination != origin`): it redraws *until* the draw equals the
origin, so the resulting destination equals the origin whenever the loop
terminates — e.g. origin 0 with draws `[2, 0]` gives destination 0. -/
theorem claim_C7 :
    spawn_destination 0 [0, 2] = some 2 ∧
      default_destination 0 [2, 0] = some 0 ∧
      (∀ (origin : Nat) (draws : List Nat) (d : Nat),
        default_destination origin draws = some d → d = origin) := by
  refine ⟨by decide, by decide, ?_⟩
  intro origin draws
  induction draws with
  | nil =>
    intro d h
    cases h
  | cons a rest ih =>
    intro d h
    unfold default_destination at h
    by_cases ha : a = origin
    · rw [if_pos ha] at h
      cases h
      exact ha
    · rw [if_neg ha] at h
      exact ih d h

/-- Witness for C7: the general part applied to origin 0, draws `[2, 0]`,
destination 0. -/
theorem claim_C7_witness : (0 : Nat) = 0 :=
  claim_C7.2.2 0 [2, 0] 0 (by decide)

/-- Claim C9: the per-tick evaluation order is the on-train passengers
sorted by start time (oldest first) followed by the on-station passengers
sorted by start time: `all_passengers` splits into a prefix that is a
permutation of the train passengers and a suffix that is a permutation of
the station passengers, each sorted by `starttime`. -/
theorem claim_C9 (trains stations : List (List SPassenger)) :
    ∃ A B, all_passengers trains stations = A ++ B ∧
      A.Perm (trains.flatMap id) ∧ B.Perm (stations.flatMap id) ∧
      A.Pairwise (fun p q => p.starttime ≤ q.starttime) ∧
      B.Pairwise (fun p q => p.starttime ≤ q.starttime) := by
  have htrans : ∀ a b c : SPassenger,
      (decide (a.starttime ≤ b.starttime)) = true →
      (decide (b.starttime ≤ c.starttime)) = true →
      (decide (a.starttime ≤ c.starttime)) = true := by
    intro a b c h1 h2
    simp only [decide_eq_true_eq] at *
    omega
  have htotal : ∀ a b : SPassenger,
      ((decide (a.starttime ≤ b.starttime)) ||
        (decide (b.starttime ≤ a.starttime))) = true := by
    intro a b
    simp only [Bool.or_eq_true, decide_eq_true_eq]
    omega
  refine ⟨(trains.flatMap id).mergeSort (fun p q => p.starttime ≤ q.starttime),
    (stations.flatMap id).mergeSort (fun p q => p.starttime ≤ q.starttime),
    rfl, List.mergeSort_perm _ _, List.mergeSort_perm _ _, ?_, ?_⟩
  · exact (@List.sorted_mergeSort SPassenger
      (fun p q => decide (p.starttime ≤ q.starttime)) htrans htotal
      (trains.flatMap id)).imp (fun h => by simpa using h)
  · exact (@List.sorted_mergeSort SPassenger
      (fun p q => decide (p.starttime ≤ q.starttime)) htrans htotal
      (stations.flatMap id)).imp (fun h => by simpa using h)

/-! ## Lemmas about `Passenger.move` at the destination -/

lemma findIdx?_eq_none {α : Type} (f : α → Bool) :
    ∀ (l : List α) (i : Nat), (∀ a ∈ l, f a = false) →
      List.findIdx? f l i = none := by
  intro l
  induction l with
  | nil => intro i _; rfl
  | cons a l ih =>
    intro i hf
    have ha : f a = false := hf a (List.mem_cons_self _ _)
    simp only [List.findIdx?, ha, cond_false]
    exact ih (i + 1) (fun b hb => hf b (List.mem_cons_of_mem _ hb))

lemma get?_set_self {α : Type} (l : List α) (i : Nat) (a : α)
    (h : i < l.length) : (l.set i a).get? i = some a := by
  rw [List.get?_eq_get (by rw [List.length_set]; omega)]
  simp

lemma erase_appended (l : List Nat) (x : Nat) (h : x ∉ l) :
    (l ++ [x]).erase x = l := by
  rw [List.erase_append_right _ h, List.erase_cons_head]
  simp

lemma passenger_arrives (nv : Nav) (hdiag : ∀ x, nv x x = ∅)
    (time : Nat) (w : World) (p : WPassenger) (ti : Nat) (t : WTrain)
    (hpos : p.pos = some (.inl ti))
    (hget : w.trains.get? ti = some t)
    (hstate : t.tstate = 0)
    (hat : t.stationIdx = p.dest)
    (hdlt : p.dest < w.stations.length)
    (hcount : t.passengers.count p.pid = 1)
    (hstations : ∀ st ∈ w.stations, p.pid ∉ st.passengers)
    (htrains : ∀ j (_ : j < w.trains.length), j ≠ ti →
      p.pid ∉ (w.trains[j]).passengers) :
    removedEverywhere (passenger_move nv time w p) p.pid w.arrived
      (time - p.start) p.dest := by
  have hmem : p.pid ∈ t.passengers := List.count_pos_iff.mp (by omega)
  have hgets : w.stations.get? p.dest =
      some (w.stations.get ⟨p.dest, hdlt⟩) := List.get?_eq_get hdlt
  set stD := w.stations.get ⟨p.dest, hdlt⟩ with hstDdef
  have hstDmem : stD ∈ w.stations := List.get_mem _ _ _
  have hpidst : p.pid ∉ stD.passengers := hstations stD hstDmem
  set w1 : World := { w with
    trains := w.trains.set ti { t with passengers := t.passengers.erase p.pid },
    stations := w.stations.set p.dest
      { stD with passengers := stD.passengers ++ [p.pid] } } with hw1def
  set p1 : WPassenger := { p with pos := some (.inr p.dest) } with hp1def
  have hb1 : moveBlockExit nv w p = .ok (w1, p1) := by
    have hcond : ((t.lineColor, t.direction) ∉ nv t.stationIdx p.dest) ∧
        can_exit t := by
      constructor
      · rw [hat, hdiag p.dest]
        exact Finset.not_mem_empty _
      · simp [can_exit, hstate]
    simp only [moveBlockExit, hpos, hget]
    rw [if_pos hcond]
    simp only [pyRemove, if_pos hmem, hat, hgets]
    rw [hw1def, hp1def, hat]
  have hb2 : moveBlockBoard nv w1 p1 = .ok (w1, p1) := by
    have hpred : ∀ t2 ∈ w1.trains, (can_enter t2 p.dest &&
        decide ((t2.lineColor, t2.direction) ∈ nv p.dest p.dest)) = false := by
      intro t2 _
      rw [hdiag p.dest]
      simp
    simp only [moveBlockBoard, hp1def]
    rw [findIdx?_eq_none _ _ 0 hpred]
  have hb3 : moveBlockArrive time w1 p1 =
      .ok ({ w1 with
        arrived := w1.arrived ++ [time - p.start],
        stations := w1.stations.set p.dest stD }, p1) := by
    have hgets1 : (w.stations.set p.dest
        { stD with passengers := stD.passengers ++ [p.pid] }).get? p.dest =
        some { stD with passengers := stD.passengers ++ [p.pid] } :=
      get?_set_self _ _ _ hdlt
    have hmem1 : p.pid ∈ stD.passengers ++ [p.pid] :=
      List.mem_append_right _ (List.mem_singleton_self _)
    simp only [moveBlockArrive, hp1def, if_true]
    rw [hgets1]
    simp only [pyRemove]
    rw [if_pos hmem1, erase_appended stD.passengers p.pid hpidst]
  have hrun : passenger_move nv time w p =
      .ok ({ w1 with
        arrived := w1.arrived ++ [time - p.start],
        stations := w1.stations.set p.dest stD }, p1) := by
    unfold passenger_move
    rw [hb1, except_bind_ok, hb2, except_bind_ok]
    exact hb3
  rw [hrun]
  unfold removedEverywhere
  refine ⟨?_, ?_, ?_, ?_⟩
  · intro st2 hst2
    have hsts : ((w1.stations.set p.dest stD)) = w.stations.set p.dest stD := by
      rw [hw1def]
      exact List.set_set _ _ _ _
    rw [hsts] at hst2
    obtain ⟨j, hj, rfl⟩ := List.mem_iff_getElem.mp hst2
    rw [List.getElem_set]
    split
    · exact hpidst
    · exact hstations _ (List.getElem_mem _)
  · intro t2 ht2
    obtain ⟨j, hj, rfl⟩ := List.mem_iff_getElem.mp ht2
    have hj2 : j < w.trains.length := by
      have := hj
      simp only [hw1def, List.length_set] at this
      exact this
    show p.pid ∉ ((w.trains.set ti
      { t with passengers := t.passengers.erase p.pid })[j]).passengers
    rw [List.getElem_set]
    split
    · next hji =>
      show p.pid ∉ t.passengers.erase p.pid
      rw [← List.count_eq_zero, List.count_erase_self, hcount]
    · next hji =>
      exact htrains j hj2 (fun hc => hji hc.symm)
  · rfl
  · rfl

/-- Claim C10: after every `NavigationMap` rebuild the route-option set from
every station to itself is empty, and consequently a passenger riding a
train that sits (`AT_STATION`) at the passenger's destination always
satisfies the alight condition, steps off, boards nothing, and is removed
from every station queue and every train (with its travel time recorded)
within the same `move()` evaluation. -/
theorem claim_C10 :
    (∀ (n : Nat) (ls : List LineSpec) (i : Nat),
      (update_navmap n ls).2 i i = ∅) ∧
      (∀ (n : Nat) (ls : List LineSpec) (time : Nat) (w : World)
        (p : WPassenger) (ti : Nat) (t : WTrain),
        p.pos = some (.inl ti) →
        w.trains.get? ti = some t →
        t.tstate = 0 →
        t.stationIdx = p.dest →
        p.dest < w.stations.length →
        t.passengers.count p.pid = 1 →
        (∀ st ∈ w.stations, p.pid ∉ st.passengers) →
        (∀ j (_ : j < w.trains.length), j ≠ ti →
          p.pid ∉ (w.trains[j]).passengers) →
        removedEverywhere
          (passenger_move ((update_navmap n ls).2) time w p)
          p.pid w.arrived (time - p.start) p.dest) :=
  ⟨update_navmap_nav_diag,
   fun n ls time w p ti t h1 h2 h3 h4 h5 h6 h7 h8 =>
     passenger_arrives ((update_navmap n ls).2)
       (update_navmap_nav_diag n ls) time w p ti t h1 h2 h3 h4 h5 h6 h7 h8⟩

/-- Claim C5: the spec says a user command either fully applies or is
rejected with an error report, never aborting the tick — naming the
Line+Remove (clear-line), Train+Move and Train+Add-without-station paths.
In the code all three raise uncaught exceptions that abort
`_process_user_actions` and the tick: `clear_line()` is called without
its required argument (`TypeError`; and even a correct call would read
the nonexistent `City.line`, shown by the last conjunct), `move_train`
reads the nonexistent `City.city`, and `set_line` with `station=None`
reads the nonexistent `Line.station_node`. -/
theorem claim_C5 :
    dispatch_line_remove ⟨[0], [], 3⟩ = Except.error .typeError ∧
      dispatch_train_move ⟨[0], [7], 3⟩ 7 = Except.error .attributeError ∧
      dispatch_train_add_no_station ⟨[0], [], 3⟩ (mkChain [1, 2]) 1 =
        Except.error .attributeError ∧
      clear_line ⟨[0], [], 3⟩ 0 = Except.error .attributeError := by
  decide

/-- Witness for C10: a one-station city with one train at station 0 in
state `AT_STATION` carrying passenger 42 whose destination is station 0. -/
theorem claim_C10_witness :
    removedEverywhere
      (passenger_move ((update_navmap 1 []).2) 5
        ⟨[⟨[]⟩], [⟨0, 1, 0, 0, [42], 6⟩], []⟩
        ⟨42, 2, 0, some (.inl 0)⟩)
      42 [] 3 0 :=
  claim_C10.2 1 [] 5 ⟨[⟨[]⟩], [⟨0, 1, 0, 0, [42], 6⟩], []⟩
    ⟨42, 2, 0, some (.inl 0)⟩ 0 ⟨0, 1, 0, 0, [42], 6⟩
    rfl rfl rfl rfl (by decide) (by decide) (by decide) (by decide)

end MetroCity
